import Mathlib

/-!
# AudioTask and EdgeTpuTask: a verification development

Shallow embedding of `libs/tasks/AudioTask/audio_task.cc` (the PDM microphone
actor task) and of the enumeration states of
`libs/tasks/EdgeTpuTask/edgetpu_task.h`.

Conventions of the embedding
* Pointers are addresses (`Nat`), the null pointer is `0`.
* The private members of `AudioTask`, the PDM status registers, the byte
  memory, the application state reached by the buffer-exchange callback and the
  FreeRTOS objects of the callers are the fields of one record, `World`.
* Calls that leave the translation unit (SDK, `memset`, the rail-control
  collaborator, the interrupt-safe enqueue, the application callback) are
  appended, in program order, to `World.trace`.
* A caller of `SendRequest` can be preempted between any two statements and
  is blocked inside `xQueueSend` and `xSemaphoreTake`; at each of these points
  `SendRequest` takes the finite list of steps that the other contexts (the
  owning task loop, the DMA completion interrupt) perform there.
* The local `resp` of `SendRequest` lives at an address of the caller's stack
  and the semaphore handle is the address of a heap block; both are inputs of
  `SendRequest`, so that a later activation can occupy the storage of an
  earlier one. A store through a reference to a dead `resp` still writes that
  address.
-/

namespace valiant

/-- Address of a byte in memory; `0` is the null pointer. -/
abbrev Ptr := Nat

/-- Modelled from the spec: the enum `AudioRequestType` is declared in
`audio_task.h`, which is not among the sources. Its four enumerators are the
cases of the `switch` in `MessageHandler`; `cast v` is
`static_cast<AudioRequestType>(v)` for a value `v` that names no enumerator
(`SendRequest` uses `v = 0xff`, the reserved "no response received" kind). -/
inductive AudioRequestType where
  | Power
  | Enable
  | SetCallback
  | SetBuffer
  | cast (v : Nat)
deriving DecidableEq, Repr

/-- Modelled from the spec: `AudioResponse` is declared in `audio_task.h`; the
only member the source reads or writes is `type`. -/
structure AudioResponse where
  type : AudioRequestType
deriving DecidableEq, Repr

/-- Modelled from the spec: `AudioTaskCallback` (declared in `audio_task.h`) is
the buffer-exchange function pointer, called with no argument and returning the
next buffer or null; `α` is the application state it may read and change. -/
abbrev AudioTaskCallback (α : Type) := α → Ptr × α

/-- The closure built at audio_task.cc lines 45-48: it captures the semaphore
handle by value (`req_semaphore`) and the caller's local `resp` by reference,
that is, the stack address of that local (`resp`). -/
structure Completion where
  req_semaphore : Nat
  resp : Nat
deriving DecidableEq, Repr

structure PowerRequest where
  enable : Bool
deriving DecidableEq, Repr

structure SetCallbackRequest (α : Type) where
  callback : Option (AudioTaskCallback α)

structure SetBufferRequest where
  buffer : Ptr
  bytes : Nat
deriving DecidableEq, Repr

/-- The payload union `req.request`; the three members are kept side by side,
so reading one member never reinterprets another. -/
structure RequestPayload (α : Type) where
  power : PowerRequest
  set_callback : SetCallbackRequest α
  set_buffer : SetBufferRequest

/-- Payload of a request whose payload the source leaves unset. -/
def RequestPayload.unset {α : Type} : RequestPayload α :=
  { power := { enable := false }
    set_callback := { callback := none }
    set_buffer := { buffer := 0, bytes := 0 } }

/-- Modelled from the spec: `AudioRequest` (declared in `audio_task.h`): the
kind tag, the payload and the optional completion callback (`none` is the
empty `std::function`, which `if (req->callback)` tests false). -/
structure AudioRequest (α : Type) where
  type : AudioRequestType
  request : RequestPayload α
  callback : Option Completion

/-- The SDK transfer descriptor `pdm_edma_transfer_t`. -/
structure pdm_edma_transfer_t where
  data : Ptr
  dataSize : Nat
  linkTransfer : Ptr
deriving DecidableEq, Repr

/-- Status passed by the SDK to the DMA completion callback: the
transfer-complete value `kStatus_PDM_Idle`, or any other value. -/
inductive status_t where
  | kStatus_PDM_Idle
  | other (code : Nat)
deriving DecidableEq, Repr

/-- Power rails of the rail-control collaborator; the audio task only names
`Rail::MIC_1V8`. -/
inductive Rail where
  | MIC_1V8
deriving DecidableEq, Repr

/-- Calls that leave audio_task.cc, as they appear in `World.trace`. -/
inductive Call (α : Type) where
  | memset (dst : Ptr) (value : Nat) (count : Nat)
  | PDM_TransferReceiveEDMA (xfer : pdm_edma_transfer_t)
  | SetRailState (rail : Rail) (enable : Bool)
  | callback_invoked
  | xQueueSendFromISR (req : AudioRequest α)
  | PDM_ClearStatus (mask : Nat)
  | PDM_ClearFIFOStatus (mask : Nat)
  | PDM_ClearRangeStatus (mask : Nat)

/-- True exactly on the calls that arm a DMA receive transfer. -/
def Call.isArm {α : Type} : Call α → Bool
  | Call.PDM_TransferReceiveEDMA _ => true
  | _ => false

/-- True exactly on the calls to the interrupt-safe enqueue. -/
def Call.isPost {α : Type} : Call α → Bool
  | Call.xQueueSendFromISR _ => true
  | _ => false

/-- True exactly on the calls to the rail-control collaborator. -/
def Call.isRail {α : Type} : Call α → Bool
  | Call.SetRailState _ _ => true
  | _ => false

/-- Use of a FreeRTOS object or of a caller local after the end of its life. -/
inductive Fault where
  | write_dead_response (slot : Nat)
  | give_deleted_semaphore (handle : Nat)
deriving DecidableEq, Repr

/-- Blocking FreeRTOS calls with their timeout in milliseconds. -/
inductive BlockingCall where
  | xQueueSend (ms : Nat)
  | xSemaphoreTake (ms : Nat)
deriving DecidableEq, Repr

/-- Everything the code of audio_task.cc reads or writes. -/
structure World (α : Type) where
  /-- `AudioTask::callback_` -/
  callback_ : Option (AudioTaskCallback α)
  /-- `AudioTask::rx_buffer_` -/
  rx_buffer_ : Ptr
  /-- `AudioTask::rx_buffer_bytes_` -/
  rx_buffer_bytes_ : Nat
  /-- `AudioTask::pdm_transfer_` -/
  pdm_transfer_ : pdm_edma_transfer_t
  /-- items waiting in `message_queue_`, oldest first -/
  message_queue_ : List (AudioRequest α)
  /-- capacity given to the queue when it was created -/
  queue_length : Nat
  /-- PDM status register -/
  STAT : Nat
  /-- PDM FIFO status register -/
  FIFO_STAT : Nat
  /-- PDM range status register -/
  RANGE_STAT : Nat
  /-- byte memory -/
  memory : Nat → Nat
  /-- state of the application behind the buffer-exchange callback -/
  app : α
  /-- calls leaving the file, oldest first -/
  trace : List (Call α)
  /-- binary semaphores by handle: `none` no semaphore at this handle (never
  created, or deleted), `some b` a semaphore, `b` telling whether it is
  available -/
  semaphores : Nat → Option Bool
  /-- content of the stack cells that hold, or have held, a local `resp` of
  `SendRequest`, by address -/
  responses : Nat → AudioResponse
  /-- whether an activation of `SendRequest` whose local `resp` lives at this
  address is running -/
  response_in_scope : Nat → Bool
  /-- completion callbacks invoked by `MessageHandler`, with their argument -/
  completions : List (Completion × AudioResponse)
  /-- uses of dead objects, oldest first -/
  faults : List Fault
  /-- blocking calls made, oldest first -/
  blocking : List BlockingCall

/-- Pointwise update of a table. -/
def setAt {β : Type} (f : Nat → β) (k : Nat) (v : β) : Nat → β :=
  fun i => if i = k then v else f i

variable {α : Type}

/-- `memset(dst, value, count)`: the `count` bytes from `dst` are set. -/
def memset (w : World α) (dst : Ptr) (value : Nat) (count : Nat) : World α :=
  { w with
    memory := fun a => if dst ≤ a ∧ a < dst + count then value % 256 else w.memory a
    trace := w.trace ++ [Call.memset dst value count] }

/-- SDK call `PDM_TransferReceiveEDMA(PDM, &pdm_edma_handle_, xfer)`: hands the
descriptor to the DMA engine and returns at once; the status it returns is
discarded by the caller. -/
def PDM_TransferReceiveEDMA (w : World α) (xfer : pdm_edma_transfer_t) : World α :=
  { w with trace := w.trace ++ [Call.PDM_TransferReceiveEDMA xfer] }

/-- Collaborator call `PmicTask::GetSingleton()->SetRailState(rail, enable)`. -/
def SetRailState (w : World α) (rail : Rail) (enable : Bool) : World α :=
  { w with trace := w.trace ++ [Call.SetRailState rail enable] }

/-- `AudioTask::HandleEnableRequest` (audio_task.cc lines 118-126). -/
def HandleEnableRequest (w : World α) : World α :=
  let w1 := memset w w.rx_buffer_ 0 w.rx_buffer_bytes_
  let w2 := { w1 with pdm_transfer_ := { w1.pdm_transfer_ with data := w1.rx_buffer_ } }
  let w3 := { w2 with pdm_transfer_ := { w2.pdm_transfer_ with dataSize := w2.rx_buffer_bytes_ } }
  let w4 := { w3 with pdm_transfer_ := { w3.pdm_transfer_ with linkTransfer := 0 } }
  PDM_TransferReceiveEDMA w4 w4.pdm_transfer_

/-- `AudioTask::HandlePowerRequest` (lines 128-131). -/
def HandlePowerRequest (w : World α) (power : PowerRequest) : World α :=
  SetRailState w Rail.MIC_1V8 power.enable

/-- `AudioTask::HandleSetCallback` (lines 133-135). -/
def HandleSetCallback (w : World α) (set_callback : SetCallbackRequest α) : World α :=
  { w with callback_ := set_callback.callback }

/-- `AudioTask::HandleSetBuffer` (lines 137-140). -/
def HandleSetBuffer (w : World α) (set_buffer : SetBufferRequest) : World α :=
  let w1 := { w with rx_buffer_ := set_buffer.buffer }
  { w1 with rx_buffer_bytes_ := set_buffer.bytes }

/-- The closure of `SendRequest` (lines 45-48) called with `cb_resp`:
`resp = cb_resp; xSemaphoreGive(req_semaphore);`. The call itself is recorded
in `completions`. The store always writes the captured address, whether the
activation that built the closure is still running, has returned, or has been
followed by another activation whose `resp` lives at the same address; when no
activation has its `resp` there the store is also recorded as a fault. The give
makes available whatever semaphore is at the captured handle; when there is
none it is recorded as a fault. -/
def Completion.invoke (cb : Completion) (cb_resp : AudioResponse) (w : World α) : World α :=
  let w1 := { w with completions := w.completions ++ [(cb, cb_resp)] }
  -- resp = cb_resp;
  let w2 :=
    { w1 with
      responses := setAt w1.responses cb.resp cb_resp
      faults :=
        if w1.response_in_scope cb.resp then w1.faults
        else w1.faults ++ [Fault.write_dead_response cb.resp] }
  -- xSemaphoreGive(req_semaphore);
  match w2.semaphores cb.req_semaphore with
  | some _ => { w2 with semaphores := setAt w2.semaphores cb.req_semaphore (some true) }
  | none => { w2 with faults := w2.faults ++ [Fault.give_deleted_semaphore cb.req_semaphore] }

/-- `AudioTask::MessageHandler` (lines 142-161). -/
def MessageHandler (w : World α) (req : AudioRequest α) : World α :=
  let resp : AudioResponse := { type := req.type }
  let w1 :=
    match req.type with
    | AudioRequestType.Power => HandlePowerRequest w req.request.power
    | AudioRequestType.Enable => HandleEnableRequest w
    | AudioRequestType.SetCallback => HandleSetCallback w req.request.set_callback
    | AudioRequestType.SetBuffer => HandleSetBuffer w req.request.set_buffer
    | AudioRequestType.cast _ => w
  match req.callback with
  | some cb => cb.invoke resp w1
  | none => w1

/-- FreeRTOS `xQueueSendFromISR`: never blocks; the item is copied to the back
of the queue when a slot is free and is lost otherwise. The result is
discarded by the caller. -/
def xQueueSendFromISR (w : World α) (req : AudioRequest α) : World α :=
  let w1 := { w with trace := w.trace ++ [Call.xQueueSendFromISR req] }
  if w1.message_queue_.length < w1.queue_length then
    { w1 with message_queue_ := w1.message_queue_ ++ [req] }
  else w1

/-- `AudioTask::PdmCallback` (lines 61-80), run from the DMA completion
interrupt. The barrier `__DSB()` and `portYIELD_FROM_ISR(reschedule)` touch no
field of `World`. The payload of the posted request is left unset by the
source. -/
def PdmCallback (w : World α) (status : status_t) : World α :=
  match status, w.callback_ with
  | status_t.kStatus_PDM_Idle, some callback =>
    let next_buffer := (callback w.app).1
    let w1 := { w with app := (callback w.app).2, trace := w.trace ++ [Call.callback_invoked] }
    if next_buffer ≠ 0 then
      let set_buffer : SetBufferRequest := { buffer := next_buffer, bytes := w1.rx_buffer_bytes_ }
      let w2 := HandleSetBuffer w1 set_buffer
      let req : AudioRequest α :=
        { type := AudioRequestType.Enable, request := RequestPayload.unset, callback := none }
      xQueueSendFromISR w2 req
    else w1
  | _, _ => w

/-- Modelled from the spec: one iteration of the processing loop of the
`QueueTask` base class, which is not among the sources: it "dequeues one
request at a time, dispatches by kind to a handler, and - if the request
carries a callback - invokes it with a response after the handler completes".
With an empty queue the loop stays blocked and nothing changes. -/
def TaskLoopStep (w : World α) : World α :=
  match w.message_queue_ with
  | [] => w
  | req :: rest => MessageHandler { w with message_queue_ := rest } req

/-- The first `n` iterations of the processing loop. -/
def TaskLoopRun : Nat → World α → World α
  | 0, w => w
  | n + 1, w => TaskLoopRun n (TaskLoopStep w)

/-- What another context does while a caller of `SendRequest` is blocked or
preempted: the owning task runs one iteration of its loop, or the DMA
completion interrupt fires with a status. -/
inductive EnvStep where
  | task
  | dma_complete (status : status_t)
deriving DecidableEq, Repr

/-- Effect of one step of another context. -/
def EnvStep.run (e : EnvStep) (w : World α) : World α :=
  match e with
  | EnvStep.task => TaskLoopStep w
  | EnvStep.dma_complete status => PdmCallback w status

/-- Effect of a list of steps of other contexts, first step first. -/
def runEnv : List EnvStep → World α → World α
  | [], w => w
  | e :: es, w => runEnv es (e.run w)

/-- The wait inside `xQueueSend`: the item is copied to the back of the queue
as soon as a slot is free; while the queue is full the other contexts run;
when the window ends with the queue still full the call fails. -/
def waitForRoom (req : AudioRequest α) : List EnvStep → World α → Bool × World α
  | [], w =>
    if w.message_queue_.length < w.queue_length then
      (true, { w with message_queue_ := w.message_queue_ ++ [req] })
    else (false, w)
  | e :: es, w =>
    if w.message_queue_.length < w.queue_length then
      (true, { w with message_queue_ := w.message_queue_ ++ [req] })
    else waitForRoom req es (e.run w)

/-- FreeRTOS `xQueueSend(message_queue_, &req, pdMS_TO_TICKS(ms))`; `sched` is
what the other contexts do during the window of `ms` milliseconds. -/
def xQueueSend (w : World α) (req : AudioRequest α) (ms : Nat) (sched : List EnvStep) :
    Bool × World α :=
  waitForRoom req sched { w with blocking := w.blocking ++ [BlockingCall.xQueueSend ms] }

/-- The wait inside `xSemaphoreTake`: the semaphore is taken as soon as it is
available; until then the other contexts run; when the window ends with the
semaphore still unavailable the call fails. -/
def waitForGive (sem : Nat) : List EnvStep → World α → Bool × World α
  | [], w =>
    if w.semaphores sem = some true then
      (true, { w with semaphores := setAt w.semaphores sem (some false) })
    else (false, w)
  | e :: es, w =>
    if w.semaphores sem = some true then
      (true, { w with semaphores := setAt w.semaphores sem (some false) })
    else waitForGive sem es (e.run w)

/-- FreeRTOS `xSemaphoreTake(sem, pdMS_TO_TICKS(ms))`; `sched` is what the
other contexts do during the window of `ms` milliseconds. -/
def xSemaphoreTake (w : World α) (sem : Nat) (ms : Nat) (sched : List EnvStep) :
    Bool × World α :=
  waitForGive sem sched { w with blocking := w.blocking ++ [BlockingCall.xSemaphoreTake ms] }

/-- FreeRTOS `xSemaphoreCreateBinary()` returning `handle`, the address of the
block the allocator hands out (possibly the block of a semaphore deleted
earlier): a semaphore exists there, not available. -/
def xSemaphoreCreateBinary (w : World α) (handle : Nat) : World α :=
  { w with semaphores := setAt w.semaphores handle (some false) }

/-- FreeRTOS `vSemaphoreDelete(sem)`. -/
def vSemaphoreDelete (w : World α) (sem : Nat) : World α :=
  { w with semaphores := setAt w.semaphores sem none }

/-- The steps of the other contexts at each point of one activation of
`SendRequest` where the caller can be preempted or is blocked. -/
structure Preemption where
  /-- between line 42 and line 43 -/
  before_create : List EnvStep
  /-- between line 48 and line 49 -/
  before_send : List EnvStep
  /-- while the caller is blocked in `xQueueSend` (line 49) -/
  during_send : List EnvStep
  /-- between line 49 and line 50 -/
  before_take : List EnvStep
  /-- while the caller is blocked in `xSemaphoreTake` (line 50) -/
  during_take : List EnvStep
  /-- between line 50 and line 51 -/
  before_delete : List EnvStep
  /-- between line 51 and line 53 -/
  before_return : List EnvStep
deriving DecidableEq, Repr

/-- No other context runs during the activation. -/
def Preemption.idle : Preemption :=
  { before_create := [], before_send := [], during_send := [], before_take := [],
    during_take := [], before_delete := [], before_return := [] }

/-- One run of `SendRequest`: the value returned, the results of the two
blocking calls (which the source discards) and the state left behind. -/
structure SendRequestRun (α : Type) where
  resp : AudioResponse
  enqueued : Bool
  taken : Bool
  world : World α

/-- `AudioTask::SendRequest` (audio_task.cc lines 40-54). `resp_addr` is the
stack address of the local `resp` of this activation, `handle` the handle that
`xSemaphoreCreateBinary` returns to it, and `p` what the other contexts do
while it runs. -/
def SendRequest (w : World α) (resp_addr handle : Nat) (req : AudioRequest α)
    (p : Preemption) : SendRequestRun α :=
  -- AudioResponse resp; resp.type = static_cast<AudioRequestType>(0xff);
  let w1 := { w with
    responses := setAt w.responses resp_addr { type := AudioRequestType.cast 0xff }
    response_in_scope := setAt w.response_in_scope resp_addr true }
  let w2 := runEnv p.before_create w1
  -- SemaphoreHandle_t req_semaphore = xSemaphoreCreateBinary();
  let req_semaphore := handle
  let w3 := xSemaphoreCreateBinary w2 handle
  -- req.callback = [req_semaphore, &resp](AudioResponse cb_resp) ...
  let req1 := { req with callback := some { req_semaphore := req_semaphore, resp := resp_addr } }
  let w4 := runEnv p.before_send w3
  -- xQueueSend(message_queue_, &req, pdMS_TO_TICKS(200));
  let sent := xQueueSend w4 req1 200 p.during_send
  let w5 := runEnv p.before_take sent.2
  -- xSemaphoreTake(req_semaphore, pdMS_TO_TICKS(200));
  let took := xSemaphoreTake w5 req_semaphore 200 p.during_take
  let w6 := runEnv p.before_delete took.2
  -- vSemaphoreDelete(req_semaphore);
  let w7 := vSemaphoreDelete w6 req_semaphore
  let w8 := runEnv p.before_return w7
  -- return resp;
  { resp := w8.responses resp_addr
    enqueued := sent.1
    taken := took.1
    world := { w8 with response_in_scope := setAt w8.response_in_scope resp_addr false } }

/-- The request built by `AudioTask::SetPower` (lines 163-168). -/
def SetPower_request (enable : Bool) : AudioRequest α :=
  { type := AudioRequestType.Power
    request := { (RequestPayload.unset : RequestPayload α) with power := { enable := enable } }
    callback := none }

/-- The request built by `AudioTask::Enable` (lines 170-174). -/
def Enable_request : AudioRequest α :=
  { type := AudioRequestType.Enable, request := RequestPayload.unset, callback := none }

/-- The request built by `AudioTask::SetCallback` (lines 176-181). -/
def SetCallback_request (cb : Option (AudioTaskCallback α)) : AudioRequest α :=
  { type := AudioRequestType.SetCallback
    request := { (RequestPayload.unset : RequestPayload α) with set_callback := { callback := cb } }
    callback := none }

/-- The request built by `AudioTask::SetBuffer` (lines 183-189). -/
def SetBuffer_request (buffer : Ptr) (bytes : Nat) : AudioRequest α :=
  { type := AudioRequestType.SetBuffer
    request := { (RequestPayload.unset : RequestPayload α) with set_buffer := { buffer := buffer, bytes := bytes } }
    callback := none }

/-- `AudioTask::SetPower`. -/
def SetPower (w : World α) (resp_addr handle : Nat) (enable : Bool) (p : Preemption) : World α :=
  (SendRequest w resp_addr handle (SetPower_request enable) p).world

/-- `AudioTask::Enable`. -/
def Enable (w : World α) (resp_addr handle : Nat) (p : Preemption) : World α :=
  (SendRequest w resp_addr handle Enable_request p).world

/-- `AudioTask::SetCallback`. -/
def SetCallback (w : World α) (resp_addr handle : Nat) (cb : Option (AudioTaskCallback α))
    (p : Preemption) : World α :=
  (SendRequest w resp_addr handle (SetCallback_request cb) p).world

/-- `AudioTask::SetBuffer`. -/
def SetBuffer (w : World α) (resp_addr handle : Nat) (buffer : Ptr) (bytes : Nat)
    (p : Preemption) : World α :=
  (SendRequest w resp_addr handle (SetBuffer_request buffer bytes) p).world

/-- A write of `mask` to a write-one-to-clear status register holding `reg`:
the bits set in `mask` are cleared, the others keep their value. -/
def writeOneToClear (reg mask : Nat) : Nat :=
  reg ^^^ (reg &&& mask)

/-- SDK call `PDM_ClearStatus(PDM, mask)`. -/
def PDM_ClearStatus (w : World α) (mask : Nat) : World α :=
  { w with STAT := writeOneToClear w.STAT mask, trace := w.trace ++ [Call.PDM_ClearStatus mask] }

/-- SDK call `PDM_ClearFIFOStatus(PDM, mask)`. -/
def PDM_ClearFIFOStatus (w : World α) (mask : Nat) : World α :=
  { w with
    FIFO_STAT := writeOneToClear w.FIFO_STAT mask
    trace := w.trace ++ [Call.PDM_ClearFIFOStatus mask] }

/-- SDK call `PDM_ClearRangeStatus(PDM, mask)`. -/
def PDM_ClearRangeStatus (w : World α) (mask : Nat) : World α :=
  { w with
    RANGE_STAT := writeOneToClear w.RANGE_STAT mask
    trace := w.trace ++ [Call.PDM_ClearRangeStatus mask] }

/-- `PDM_ERROR_IRQHandler` (audio_task.cc lines 16-34). The SDK constant
`PDM_STAT_LOWFREQF_MASK` is not among the sources and is a parameter. The
getters `PDM_GetStatus`, `PDM_GetFifoStatus` and `PDM_GetRangeStatus` read the
three registers; the barrier `__DSB()` touches no field of `World`. -/
def PDM_ERROR_IRQHandler (PDM_STAT_LOWFREQF_MASK : Nat) (w : World α) : World α :=
  let status := w.STAT
  let w1 := if status &&& PDM_STAT_LOWFREQF_MASK ≠ 0 then
      PDM_ClearStatus w PDM_STAT_LOWFREQF_MASK
    else w
  let status := w1.FIFO_STAT
  let w2 := if status ≠ 0 then PDM_ClearFIFOStatus w1 status else w1
  let status := w2.RANGE_STAT
  if status ≠ 0 then PDM_ClearRangeStatus w2 status else w2

/-! ## Accelerator enumeration states -/

/-- `kEdgeTpuVid` (edgetpu_task.h line 11). -/
def kEdgeTpuVid : Nat := 0x18d1

/-- `kEdgeTpuPid` (edgetpu_task.h line 12). -/
def kEdgeTpuPid : Nat := 0x9302

/-- `enum edgetpu_state` (edgetpu_task.h lines 14-21). -/
inductive edgetpu_state where
  | EDGETPU_STATE_UNATTACHED
  | EDGETPU_STATE_ATTACHED
  | EDGETPU_STATE_SET_INTERFACE
  | EDGETPU_STATE_GET_STATUS
  | EDGETPU_STATE_CONNECTED
  | EDGETPU_STATE_ERROR
deriving DecidableEq, Repr

/-- The integer value of each enumerator. -/
def edgetpu_state.toNat : edgetpu_state → Nat
  | EDGETPU_STATE_UNATTACHED => 0
  | EDGETPU_STATE_ATTACHED => 1
  | EDGETPU_STATE_SET_INTERFACE => 2
  | EDGETPU_STATE_GET_STATUS => 3
  | EDGETPU_STATE_CONNECTED => 4
  | EDGETPU_STATE_ERROR => 5

/-- Modelled from the spec: the events that drive the enumeration, as named on
the edges of the transition table of the spec (section 4.3). The code that
raises them (`USBHostEvent`, `SetInterfaceCallback`, `GetStatusCallback`) is
only declared in edgetpu_task.h. -/
inductive EdgeTpuEvent where
  | attach (vid pid : Nat)
  | interface_selection_issued
  | selection_callback (success : Bool)
  | status_callback (success : Bool)
  | detach
deriving DecidableEq, Repr

open edgetpu_state in
/-- Modelled from the spec: the state reached from `s` on event `e`; the body of
`EdgeTpuTask::SetNextState` and of the task function are not among the sources.
The edges are those of the table in section 4.3 of the spec; an event with no
edge from the current state leaves the state as it is. -/
def edgetpuNextState (s : edgetpu_state) (e : EdgeTpuEvent) : edgetpu_state :=
  match e, s with
  | EdgeTpuEvent.detach, _ => EDGETPU_STATE_UNATTACHED
  | EdgeTpuEvent.attach vid pid, EDGETPU_STATE_UNATTACHED =>
    if vid = kEdgeTpuVid ∧ pid = kEdgeTpuPid then EDGETPU_STATE_ATTACHED
    else EDGETPU_STATE_UNATTACHED
  | EdgeTpuEvent.interface_selection_issued, EDGETPU_STATE_ATTACHED => EDGETPU_STATE_SET_INTERFACE
  | EdgeTpuEvent.selection_callback true, EDGETPU_STATE_SET_INTERFACE => EDGETPU_STATE_GET_STATUS
  | EdgeTpuEvent.selection_callback false, EDGETPU_STATE_SET_INTERFACE => EDGETPU_STATE_ERROR
  | EdgeTpuEvent.status_callback true, EDGETPU_STATE_GET_STATUS => EDGETPU_STATE_CONNECTED
  | EdgeTpuEvent.status_callback false, EDGETPU_STATE_GET_STATUS => EDGETPU_STATE_ERROR
  | _, s => s

open edgetpu_state in
/-- The documented edges: the seven lines of the transition table of the spec
(section 4.3), one constructor each. -/
inductive DocumentedEdge : edgetpu_state → EdgeTpuEvent → edgetpu_state → Prop where
  | attach : DocumentedEdge EDGETPU_STATE_UNATTACHED
      (EdgeTpuEvent.attach kEdgeTpuVid kEdgeTpuPid) EDGETPU_STATE_ATTACHED
  | issue : DocumentedEdge EDGETPU_STATE_ATTACHED
      EdgeTpuEvent.interface_selection_issued EDGETPU_STATE_SET_INTERFACE
  | selected : DocumentedEdge EDGETPU_STATE_SET_INTERFACE
      (EdgeTpuEvent.selection_callback true) EDGETPU_STATE_GET_STATUS
  | selection_failed : DocumentedEdge EDGETPU_STATE_SET_INTERFACE
      (EdgeTpuEvent.selection_callback false) EDGETPU_STATE_ERROR
  | status_ok : DocumentedEdge EDGETPU_STATE_GET_STATUS
      (EdgeTpuEvent.status_callback true) EDGETPU_STATE_CONNECTED
  | status_failed : DocumentedEdge EDGETPU_STATE_GET_STATUS
      (EdgeTpuEvent.status_callback false) EDGETPU_STATE_ERROR
  | detach (s : edgetpu_state) : DocumentedEdge s EdgeTpuEvent.detach EDGETPU_STATE_UNATTACHED

/-- The table of semaphores after `xSemaphoreGive(m)`: a semaphore at `m`
becomes available, and nothing changes when there is none. -/
def giveAt (sems : Nat → Option Bool) (m : Nat) : Nat → Option Bool :=
  if (sems m).isSome then setAt sems m (some true) else sems

/-- No completion callback waiting in the queue writes the address `s`: no
request of an earlier activation whose `resp` lived at `s` is still queued. -/
def NoStale (s : Nat) (w : World α) : Prop :=
  ∀ r ∈ w.message_queue_, ∀ cb, r.callback = some cb → cb.resp ≠ s

/-- The request that `PdmCallback` posts (lines 72-74). -/
def postedEnable : AudioRequest α :=
  { type := AudioRequestType.Enable, request := RequestPayload.unset, callback := none }

/-- A property of the queue, of the cells of the `resp` locals and of the
semaphores that the steps of the other contexts keep: it survives the removal
of the oldest request, with the effect of its completion callback when it has
one, and the arrival of the request posted by the interrupt. -/
def Stable (I : List (AudioRequest α) → (Nat → AudioResponse) → (Nat → Option Bool) → Prop) :
    Prop :=
  (∀ r q R S, I (r :: q) R S → r.callback = none → I q R S) ∧
  (∀ r q R S cb, I (r :: q) R S → r.callback = some cb →
    I q (setAt R cb.resp { type := r.type }) (giveAt S cb.req_semaphore)) ∧
  (∀ q R S, I q R S → I (q ++ [postedEnable]) R S)

/-- The property `I` read on a state. -/
def Holds (I : List (AudioRequest α) → (Nat → AudioResponse) → (Nat → Option Bool) → Prop)
    (w : World α) : Prop :=
  I w.message_queue_ w.responses w.semaphores

/-- Every completion callback in the queue that writes the address `s` belongs
to a request of kind `K`, and the cell at `s` holds the kind `K` or 0xff. -/
def Tagged (s : Nat) (K : AudioRequestType) (q : List (AudioRequest α))
    (R : Nat → AudioResponse) (_S : Nat → Option Bool) : Prop :=
  (∀ r ∈ q, ∀ cb, r.callback = some cb → cb.resp = s → r.type = K) ∧
  ((R s).type = K ∨ (R s).type = AudioRequestType.cast 0xff)

/-- No completion callback in the queue writes the address `s`, and the cell at
`s` holds the kind 0xff. -/
def Quiet (s : Nat) (q : List (AudioRequest α)) (R : Nat → AudioResponse)
    (_S : Nat → Option Bool) : Prop :=
  (∀ r ∈ q, ∀ cb, r.callback = some cb → cb.resp ≠ s) ∧
  (R s).type = AudioRequestType.cast 0xff

/-- Every completion callback in the queue that writes the address `s` gives
the semaphore `m`; `m` exists; the cell at `s` still holds the kind 0xff while
`m` is not available. -/
def Pending (s m : Nat) (q : List (AudioRequest α)) (R : Nat → AudioResponse)
    (S : Nat → Option Bool) : Prop :=
  (∀ r ∈ q, ∀ cb, r.callback = some cb → cb.resp = s → cb.req_semaphore = m) ∧
  (∃ g, S m = some g) ∧
  (S m ≠ some true → (R s).type = AudioRequestType.cast 0xff)

/-- True exactly on the calls of the buffer-exchange callback. -/
def Call.isCallback {α : Type} : Call α → Bool
  | Call.callback_invoked => true
  | _ => false

/-- A concrete task state used to exercise the theorems: a buffer of 8 bytes
at address 100 holding the byte 0xAA everywhere, a buffer-exchange callback that
counts its calls and always hands out the buffer at address 200, an empty queue
of capacity 2 and no live caller. -/
def sampleWorld : World Nat :=
  { callback_ := some (fun n => (200, n + 1))
    rx_buffer_ := 100
    rx_buffer_bytes_ := 8
    pdm_transfer_ := { data := 0, dataSize := 0, linkTransfer := 0 }
    message_queue_ := []
    queue_length := 2
    STAT := 0
    FIFO_STAT := 0
    RANGE_STAT := 0
    memory := fun _ => 0xAA
    app := 0
    trace := []
    semaphores := fun _ => none
    responses := fun _ => { type := AudioRequestType.cast 0 }
    response_in_scope := fun _ => false
    completions := []
    faults := []
    blocking := [] }

/-- The state left by `SetPower(true)` called on `sampleWorld` with its `resp`
at stack address 7000 and the semaphore handle 9000, while no other context
runs: the call has timed out and its request is still in the queue. -/
def afterTimedOutSetPower : World Nat :=
  (SendRequest sampleWorld 7000 9000 (SetPower_request true) Preemption.idle).world

/-- The same as `afterTimedOutSetPower` on a queue of capacity 1, which the
request left behind fills. -/
def afterTimedOutSetPowerFull : World Nat :=
  (SendRequest { sampleWorld with queue_length := 1 } 7000 9000 (SetPower_request true)
    Preemption.idle).world

/-- A state whose queue, of capacity 1, is full. -/
def fullQueueWorld : World Nat :=
  { sampleWorld with queue_length := 1, message_queue_ := [SetPower_request true] }

/-! ## Frame of the completion callback

The closure of `SendRequest` touches the cell of `resp`, the semaphore, and the
records of completions and faults; every other field is left as it is. -/

section Frame

variable (cb : Completion) (r : AudioResponse) (w : World α)

@[simp] theorem Completion.invoke_trace : (cb.invoke r w).trace = w.trace := by
  unfold Completion.invoke; dsimp only; split <;> rfl

@[simp] theorem Completion.invoke_memory : (cb.invoke r w).memory = w.memory := by
  unfold Completion.invoke; dsimp only; split <;> rfl

@[simp] theorem Completion.invoke_callback_ : (cb.invoke r w).callback_ = w.callback_ := by
  unfold Completion.invoke; dsimp only; split <;> rfl

@[simp] theorem Completion.invoke_rx_buffer_ : (cb.invoke r w).rx_buffer_ = w.rx_buffer_ := by
  unfold Completion.invoke; dsimp only; split <;> rfl

@[simp] theorem Completion.invoke_rx_buffer_bytes_ :
    (cb.invoke r w).rx_buffer_bytes_ = w.rx_buffer_bytes_ := by
  unfold Completion.invoke; dsimp only; split <;> rfl

@[simp] theorem Completion.invoke_pdm_transfer_ :
    (cb.invoke r w).pdm_transfer_ = w.pdm_transfer_ := by
  unfold Completion.invoke; dsimp only; split <;> rfl

@[simp] theorem Completion.invoke_message_queue_ :
    (cb.invoke r w).message_queue_ = w.message_queue_ := by
  unfold Completion.invoke; dsimp only; split <;> rfl

@[simp] theorem Completion.invoke_queue_length :
    (cb.invoke r w).queue_length = w.queue_length := by
  unfold Completion.invoke; dsimp only; split <;> rfl

@[simp] theorem Completion.invoke_app : (cb.invoke r w).app = w.app := by
  unfold Completion.invoke; dsimp only; split <;> rfl

@[simp] theorem Completion.invoke_blocking : (cb.invoke r w).blocking = w.blocking := by
  unfold Completion.invoke; dsimp only; split <;> rfl

@[simp] theorem Completion.invoke_response_in_scope :
    (cb.invoke r w).response_in_scope = w.response_in_scope := by
  unfold Completion.invoke; dsimp only; split <;> rfl

@[simp] theorem Completion.invoke_completions :
    (cb.invoke r w).completions = w.completions ++ [(cb, r)] := by
  unfold Completion.invoke; dsimp only; split <;> rfl

@[simp] theorem Completion.invoke_responses :
    (cb.invoke r w).responses = setAt w.responses cb.resp r := by
  unfold Completion.invoke; dsimp only; split <;> rfl

@[simp] theorem Completion.invoke_semaphores :
    (cb.invoke r w).semaphores = giveAt w.semaphores cb.req_semaphore := by
  unfold Completion.invoke giveAt; dsimp only; split <;> simp_all

end Frame

/-! ## The blocking round trip -/

/-- C3, the code at the failing input: `SetPower(true)` is called on
`sampleWorld` (its `resp` at stack address 7000, its semaphore handle 9000)
while no other context runs. The request is queued, the wait on the semaphore
times out, the call returns the type 0xff, its semaphore is deleted and its
`resp` is out of scope, and the request stays in the queue with its completion
callback. When the owning task then dequeues it, `MessageHandler` does invoke
that callback: it writes the dead `resp` (the stack cell now holds the kind
Power) and gives the deleted semaphore. -/
theorem MessageHandler_completes_vanished_waiter :
    (SendRequest sampleWorld 7000 9000 (SetPower_request true) Preemption.idle).enqueued = true ∧
      (SendRequest sampleWorld 7000 9000 (SetPower_request true) Preemption.idle).taken = false ∧
      (SendRequest sampleWorld 7000 9000 (SetPower_request true) Preemption.idle).resp.type =
        AudioRequestType.cast 0xff ∧
      (SendRequest sampleWorld 7000 9000 (SetPower_request true)
        Preemption.idle).world.semaphores 9000 = none ∧
      (SendRequest sampleWorld 7000 9000 (SetPower_request true)
        Preemption.idle).world.response_in_scope 7000 = false ∧
      (SendRequest sampleWorld 7000 9000 (SetPower_request true)
          Preemption.idle).world.message_queue_.map (fun r => (r.type, r.callback)) =
        [(AudioRequestType.Power, some { req_semaphore := 9000, resp := 7000 })] ∧
      (SendRequest sampleWorld 7000 9000 (SetPower_request true)
        Preemption.idle).world.completions = [] ∧
      (TaskLoopStep (SendRequest sampleWorld 7000 9000 (SetPower_request true)
          Preemption.idle).world).completions =
        [({ req_semaphore := 9000, resp := 7000 }, { type := AudioRequestType.Power })] ∧
      (TaskLoopStep (SendRequest sampleWorld 7000 9000 (SetPower_request true)
          Preemption.idle).world).faults =
        [Fault.write_dead_response 7000, Fault.give_deleted_semaphore 9000] ∧
      ((TaskLoopStep (SendRequest sampleWorld 7000 9000 (SetPower_request true)
          Preemption.idle).world).responses 7000).type = AudioRequestType.Power :=
  ⟨rfl, rfl, rfl, rfl, rfl, rfl, rfl, rfl, rfl, rfl⟩

/-- C1, the code at the failing input: in the state left by the timed-out
`SetPower(true)` of `afterTimedOutSetPower`, the same caller calls
`SetBuffer(300, 16)`; the local `resp` of the new activation lives at the same
stack address 7000. While the caller waits on its semaphore the owning task
runs one iteration of its loop and dequeues the request left behind by the
first call, of kind Power, whose completion callback writes address 7000. The
request sent is of kind SetBuffer and the response returned is of kind Power:
neither the kind of the request nor 0xff. This happens when the new semaphore
has the handle of the deleted one (the stale give then ends the wait at once)
and when it has another handle (the wait then times out). The SetBuffer request
itself has not been handled: it is still in the queue and `rx_buffer_` is
unchanged. -/
theorem SendRequest_returns_kind_of_stale_request :
    afterTimedOutSetPower.message_queue_.map (fun r => (r.type, r.callback)) =
        [(AudioRequestType.Power, some { req_semaphore := 9000, resp := 7000 })] ∧
      (SetBuffer_request 300 16 : AudioRequest Nat).type = AudioRequestType.SetBuffer ∧
      (SendRequest afterTimedOutSetPower 7000 9000 (SetBuffer_request 300 16)
          { Preemption.idle with during_take := [EnvStep.task] }).resp.type =
        AudioRequestType.Power ∧
      (SendRequest afterTimedOutSetPower 7000 9000 (SetBuffer_request 300 16)
          { Preemption.idle with during_take := [EnvStep.task] }).taken = true ∧
      (SendRequest afterTimedOutSetPower 7000 9100 (SetBuffer_request 300 16)
          { Preemption.idle with during_take := [EnvStep.task] }).resp.type =
        AudioRequestType.Power ∧
      (SendRequest afterTimedOutSetPower 7000 9100 (SetBuffer_request 300 16)
          { Preemption.idle with during_take := [EnvStep.task] }).taken = false ∧
      (SendRequest afterTimedOutSetPower 7000 9000 (SetBuffer_request 300 16)
          { Preemption.idle with during_take := [EnvStep.task] }).world.message_queue_.map
          (fun r => r.type) = [AudioRequestType.SetBuffer] ∧
      (SendRequest afterTimedOutSetPower 7000 9000 (SetBuffer_request 300 16)
          { Preemption.idle with during_take := [EnvStep.task] }).world.rx_buffer_ =
        sampleWorld.rx_buffer_ ∧
      AudioRequestType.Power ≠ AudioRequestType.SetBuffer ∧
      AudioRequestType.Power ≠ AudioRequestType.cast 0xff :=
  ⟨rfl, rfl, rfl, rfl, rfl, rfl, rfl, rfl, by decide, by decide⟩

/-- C2, the code at the failing input. First: in the state left by the
timed-out `SetPower(true)` of `afterTimedOutSetPowerFull`, whose queue of
capacity 1 is filled by the request left behind, the same caller calls
`SetBuffer(300, 16)` with its `resp` at the same stack address 7000. No context
runs during the window of `xQueueSend`, which fails; during the window of
`xSemaphoreTake` the owning task runs one iteration and dequeues the stale
request, whose completion callback writes address 7000; `xSemaphoreTake` times
out. The enqueue has failed, the wait has expired, the completion callback of
the request sent has not run (none was recorded for it), and the response
returned is of kind Power, not 0xff. Second: on `sampleWorld`, with nothing
stale, `Enable()` times out on its semaphore and the owning task handles the
request between the expired `xSemaphoreTake` (line 50) and `vSemaphoreDelete`
(line 51): the response returned is of kind Enable, not 0xff. -/
theorem SendRequest_timeout_returns_written_kind :
    afterTimedOutSetPowerFull.message_queue_.length = afterTimedOutSetPowerFull.queue_length ∧
      (SendRequest afterTimedOutSetPowerFull 7000 9100 (SetBuffer_request 300 16)
          { Preemption.idle with during_take := [EnvStep.task] }).enqueued = false ∧
      (SendRequest afterTimedOutSetPowerFull 7000 9100 (SetBuffer_request 300 16)
          { Preemption.idle with during_take := [EnvStep.task] }).taken = false ∧
      (SendRequest afterTimedOutSetPowerFull 7000 9100 (SetBuffer_request 300 16)
          { Preemption.idle with during_take := [EnvStep.task] }).world.completions =
        [({ req_semaphore := 9000, resp := 7000 }, { type := AudioRequestType.Power })] ∧
      (SendRequest afterTimedOutSetPowerFull 7000 9100 (SetBuffer_request 300 16)
          { Preemption.idle with during_take := [EnvStep.task] }).resp.type =
        AudioRequestType.Power ∧
      (SendRequest sampleWorld 7000 9000 Enable_request
          { Preemption.idle with before_delete := [EnvStep.task] }).taken = false ∧
      (SendRequest sampleWorld 7000 9000 Enable_request
          { Preemption.idle with before_delete := [EnvStep.task] }).resp.type =
        AudioRequestType.Enable ∧
      AudioRequestType.Power ≠ AudioRequestType.cast 0xff ∧
      AudioRequestType.Enable ≠ AudioRequestType.cast 0xff :=
  ⟨rfl, rfl, rfl, rfl, rfl, rfl, rfl, by decide, by decide⟩

/-! ### What holds of `SendRequest` when nothing stale is queued -/

/-- What `MessageHandler` does to the queue, to the cells of the `resp` locals,
to the semaphores and to the record of blocking calls. -/
theorem MessageHandler_view (w : World α) (req : AudioRequest α) :
    (MessageHandler w req).message_queue_ = w.message_queue_ ∧
      (MessageHandler w req).queue_length = w.queue_length ∧
      (MessageHandler w req).blocking = w.blocking ∧
      (MessageHandler w req).responses =
        (match req.callback with
          | some cb => setAt w.responses cb.resp { type := req.type }
          | none => w.responses) ∧
      (MessageHandler w req).semaphores =
        (match req.callback with
          | some cb => giveAt w.semaphores cb.req_semaphore
          | none => w.semaphores) := by
  unfold MessageHandler
  cases req.type <;> cases req.callback <;>
    simp [HandlePowerRequest, SetRailState, HandleEnableRequest, PDM_TransferReceiveEDMA,
      memset, HandleSetCallback, HandleSetBuffer]

/-- What `PdmCallback` does to the same fields: at most the posted request is
added to the queue, and a full queue is left as it is. -/
theorem PdmCallback_view (w : World α) (status : status_t) :
    ((PdmCallback w status).message_queue_ = w.message_queue_ ∨
        (PdmCallback w status).message_queue_ = w.message_queue_ ++ [postedEnable]) ∧
      (w.queue_length ≤ w.message_queue_.length →
        (PdmCallback w status).message_queue_ = w.message_queue_) ∧
      (PdmCallback w status).queue_length = w.queue_length ∧
      (PdmCallback w status).blocking = w.blocking ∧
      (PdmCallback w status).responses = w.responses ∧
      (PdmCallback w status).semaphores = w.semaphores := by
  unfold PdmCallback
  split
  · dsimp only
    split
    · unfold xQueueSendFromISR HandleSetBuffer
      dsimp only
      split
      · rename_i h
        exact ⟨Or.inr rfl, fun hfull => absurd h (Nat.not_lt.2 hfull), rfl, rfl, rfl, rfl⟩
      · exact ⟨Or.inl rfl, fun _ => rfl, rfl, rfl, rfl, rfl⟩
    · exact ⟨Or.inl rfl, fun _ => rfl, rfl, rfl, rfl, rfl⟩
  · exact ⟨Or.inl rfl, fun _ => rfl, rfl, rfl, rfl, rfl⟩

section Invariants

variable (I : List (AudioRequest α) → (Nat → AudioResponse) → (Nat → Option Bool) → Prop)

/-- A stable property is kept by every step of another context. -/
theorem EnvStep.run_stable (hI : Stable I) (e : EnvStep) (w : World α) (h : Holds I w) :
    Holds I (e.run w) := by
  obtain ⟨hdrop, hcb, hpost⟩ := hI
  cases e with
  | task =>
    show Holds I (TaskLoopStep w)
    unfold TaskLoopStep
    cases hq : w.message_queue_ with
    | nil => exact h
    | cons req rest =>
      simp only
      obtain ⟨h1, -, -, h4, h5⟩ := MessageHandler_view { w with message_queue_ := rest } req
      unfold Holds at h ⊢
      rw [h1, h4, h5]
      rw [hq] at h
      cases hc : req.callback with
      | none => exact hdrop req rest _ _ h hc
      | some cb => exact hcb req rest _ _ cb h hc
  | dma_complete status =>
    show Holds I (PdmCallback w status)
    obtain ⟨h1, -, -, -, h5, h6⟩ := PdmCallback_view w status
    unfold Holds at h ⊢
    rw [h5, h6]
    rcases h1 with h1 | h1
    · rw [h1]; exact h
    · rw [h1]; exact hpost _ _ _ h

/-- A stable property is kept by every list of steps of other contexts. -/
theorem runEnv_stable (hI : Stable I) (sched : List EnvStep) (w : World α) (h : Holds I w) :
    Holds I (runEnv sched w) := by
  induction sched generalizing w with
  | nil => exact h
  | cons e es ih => exact ih (e.run w) (EnvStep.run_stable I hI e w h)

/-- A stable property that survives the arrival of `req` is kept by the wait of
`xQueueSend`. -/
theorem waitForRoom_stable (hI : Stable I) (req : AudioRequest α)
    (henq : ∀ q R S, I q R S → I (q ++ [req]) R S) (sched : List EnvStep) (w : World α)
    (h : Holds I w) : Holds I (waitForRoom req sched w).2 := by
  induction sched generalizing w with
  | nil =>
    unfold waitForRoom
    split
    · exact henq _ _ _ h
    · exact h
  | cons e es ih =>
    unfold waitForRoom
    split
    · exact henq _ _ _ h
    · exact ih (e.run w) (EnvStep.run_stable I hI e w h)

/-- A stable property is kept by a wait of `xQueueSend` that fails: the request
has never been in the queue. -/
theorem waitForRoom_stable_of_fail (hI : Stable I) (req : AudioRequest α)
    (sched : List EnvStep) (w : World α) (h : Holds I w)
    (hfail : (waitForRoom req sched w).1 = false) : Holds I (waitForRoom req sched w).2 := by
  induction sched generalizing w with
  | nil =>
    unfold waitForRoom at hfail ⊢
    split
    · rename_i hroom
      simp [hroom] at hfail
    · exact h
  | cons e es ih =>
    unfold waitForRoom at hfail ⊢
    split
    · rename_i hroom
      simp [hroom] at hfail
    · rename_i hroom
      simp only [hroom, if_false] at hfail
      exact ih (e.run w) (EnvStep.run_stable I hI e w h) hfail

/-- A stable property that survives the taking of `sem` is kept by the wait of
`xSemaphoreTake`. -/
theorem waitForGive_stable (hI : Stable I) (sem : Nat)
    (htake : ∀ q R S, I q R S → I q R (setAt S sem (some false))) (sched : List EnvStep)
    (w : World α) (h : Holds I w) : Holds I (waitForGive sem sched w).2 := by
  induction sched generalizing w with
  | nil =>
    unfold waitForGive
    split
    · exact htake _ _ _ h
    · exact h
  | cons e es ih =>
    unfold waitForGive
    split
    · exact htake _ _ _ h
    · exact ih (e.run w) (EnvStep.run_stable I hI e w h)

/-- A stable property that survives the arrival of `req` is kept by
`xQueueSend`. -/
theorem xQueueSend_stable (hI : Stable I) (req : AudioRequest α)
    (henq : ∀ q R S, I q R S → I (q ++ [req]) R S) (ms : Nat) (sched : List EnvStep)
    (w : World α) (h : Holds I w) : Holds I (xQueueSend w req ms sched).2 :=
  waitForRoom_stable I hI req henq sched _ h

/-- A stable property is kept by an `xQueueSend` that fails. -/
theorem xQueueSend_stable_of_fail (hI : Stable I) (req : AudioRequest α) (ms : Nat)
    (sched : List EnvStep) (w : World α) (h : Holds I w)
    (hfail : (xQueueSend w req ms sched).1 = false) : Holds I (xQueueSend w req ms sched).2 :=
  waitForRoom_stable_of_fail I hI req sched _ h hfail

/-- A stable property that survives the taking of `sem` is kept by
`xSemaphoreTake`. -/
theorem xSemaphoreTake_stable (hI : Stable I) (sem : Nat)
    (htake : ∀ q R S, I q R S → I q R (setAt S sem (some false))) (ms : Nat)
    (sched : List EnvStep) (w : World α) (h : Holds I w) :
    Holds I (xSemaphoreTake w sem ms sched).2 :=
  waitForGive_stable I hI sem htake sched _ h

end Invariants

/-- `Tagged` is stable. -/
theorem Tagged_stable (s : Nat) (K : AudioRequestType) :
    Stable (Tagged s K : List (AudioRequest α) → _ → _ → Prop) := by
  refine ⟨?_, ?_, ?_⟩
  · intro r q R S h _
    exact ⟨fun r2 hr2 => h.1 r2 (List.mem_cons_of_mem _ hr2), h.2⟩
  · intro r q R S cb h hc
    refine ⟨fun r2 hr2 => h.1 r2 (List.mem_cons_of_mem _ hr2), ?_⟩
    by_cases hs : cb.resp = s
    · left
      simp [setAt, hs, h.1 r (List.mem_cons_self _ _) cb hc hs]
    · simpa [setAt, Ne.symm hs] using h.2
  · intro q R S h
    refine ⟨?_, h.2⟩
    intro r hr cb hcb
    rcases List.mem_append.1 hr with hr | hr
    · exact h.1 r hr cb hcb
    · rw [List.mem_singleton.1 hr] at hcb
      cases hcb

/-- `Quiet` is stable. -/
theorem Quiet_stable (s : Nat) : Stable (Quiet s : List (AudioRequest α) → _ → _ → Prop) := by
  refine ⟨?_, ?_, ?_⟩
  · intro r q R S h _
    exact ⟨fun r2 hr2 => h.1 r2 (List.mem_cons_of_mem _ hr2), h.2⟩
  · intro r q R S cb h hc
    refine ⟨fun r2 hr2 => h.1 r2 (List.mem_cons_of_mem _ hr2), ?_⟩
    have hs : cb.resp ≠ s := h.1 r (List.mem_cons_self _ _) cb hc
    simpa [setAt, Ne.symm hs] using h.2
  · intro q R S h
    refine ⟨?_, h.2⟩
    intro r hr cb hcb
    rcases List.mem_append.1 hr with hr | hr
    · exact h.1 r hr cb hcb
    · rw [List.mem_singleton.1 hr] at hcb
      cases hcb

/-- `Pending` is stable. -/
theorem Pending_stable (s m : Nat) :
    Stable (Pending s m : List (AudioRequest α) → _ → _ → Prop) := by
  refine ⟨?_, ?_, ?_⟩
  · intro r q R S h _
    exact ⟨fun r2 hr2 => h.1 r2 (List.mem_cons_of_mem _ hr2), h.2⟩
  · intro r q R S cb h hc
    obtain ⟨hq, ⟨g, hg⟩, hto⟩ := h
    refine ⟨fun r2 hr2 => hq r2 (List.mem_cons_of_mem _ hr2), ?_, ?_⟩
    · unfold giveAt
      split
      · by_cases hm : m = cb.req_semaphore
        · exact ⟨true, by simp [setAt, hm]⟩
        · exact ⟨g, by simp [setAt, hm, hg]⟩
      · exact ⟨g, hg⟩
    · intro hne
      by_cases hs : cb.resp = s
      · have hm := hq r (List.mem_cons_self _ _) cb hc hs
        exact absurd (by simp [giveAt, hm, hg, setAt]) hne
      · have hold : S m ≠ some true := by
          intro hav
          apply hne
          unfold giveAt
          split
          · by_cases hm : m = cb.req_semaphore
            · simp [setAt, hm]
            · simp [setAt, hm, hav]
          · exact hav
        simpa [setAt, Ne.symm hs] using hto hold
  · intro q R S h
    refine ⟨?_, h.2⟩
    intro r hr cb hcb
    rcases List.mem_append.1 hr with hr | hr
    · exact h.1 r hr cb hcb
    · rw [List.mem_singleton.1 hr] at hcb
      cases hcb

/-- When the wait of `xSemaphoreTake` times out under `Pending`, the cell at `s`
still holds the kind 0xff. -/
theorem waitForGive_timeout_of_Pending (s m : Nat) (sched : List EnvStep) (w : World α)
    (h : Holds (Pending s m) w) (hto : (waitForGive m sched w).1 = false) :
    ((waitForGive m sched w).2.responses s).type = AudioRequestType.cast 0xff := by
  induction sched generalizing w with
  | nil =>
    unfold waitForGive at hto ⊢
    split
    · rename_i hav
      simp [hav] at hto
    · rename_i hav
      exact h.2.2 hav
  | cons e es ih =>
    unfold waitForGive at hto ⊢
    split
    · rename_i hav
      simp [hav] at hto
    · rename_i hav
      simp only [hav, if_false] at hto
      exact ih (e.run w) (EnvStep.run_stable _ (Pending_stable s m) e w h) hto

/-- When `xSemaphoreTake` times out under `Pending`, the cell at `s` still holds
the kind 0xff. -/
theorem xSemaphoreTake_timeout_of_Pending (s m ms : Nat) (sched : List EnvStep) (w : World α)
    (h : Holds (Pending s m) w) (hto : (xSemaphoreTake w m ms sched).1 = false) :
    ((xSemaphoreTake w m ms sched).2.responses s).type = AudioRequestType.cast 0xff :=
  waitForGive_timeout_of_Pending s m sched _ h hto

/-- When no completion callback left in the queue writes the address of its
`resp`, `SendRequest` returns the kind of its request or 0xff, wherever the
other contexts run during the activation. -/
theorem SendRequest_kind_or_sentinel_of_NoStale (w : World α) (s m : Nat)
    (req : AudioRequest α) (p : Preemption) (h : NoStale s w) :
    (SendRequest w s m req p).resp.type = req.type ∨
      (SendRequest w s m req p).resp.type = AudioRequestType.cast 0xff := by
  have hI : Stable (Tagged s req.type : List (AudioRequest α) → _ → _ → Prop) :=
    Tagged_stable s req.type
  have h1 : Holds (Tagged s req.type)
      { w with
        responses := setAt w.responses s { type := AudioRequestType.cast 0xff }
        response_in_scope := setAt w.response_in_scope s true } :=
    ⟨fun r hr cb hcb hs => absurd hs (h r hr cb hcb), Or.inr (by simp [setAt])⟩
  have h2 := runEnv_stable _ hI p.before_create _ h1
  have h3 : Holds (Tagged s req.type) (xSemaphoreCreateBinary _ m) := h2
  have h4 := runEnv_stable _ hI p.before_send _ h3
  have h5 := xQueueSend_stable _ hI
    { req with callback := some { req_semaphore := m, resp := s } }
    (by
      intro q R S hq
      refine ⟨?_, hq.2⟩
      intro r hr cb hcb hs
      rcases List.mem_append.1 hr with hr | hr
      · exact hq.1 r hr cb hcb hs
      · rw [List.mem_singleton.1 hr])
    200 p.during_send _ h4
  have h6 := runEnv_stable _ hI p.before_take _ h5
  have h7 := xSemaphoreTake_stable _ hI m (fun q R S hq => hq) 200 p.during_take _ h6
  have h8 := runEnv_stable _ hI p.before_delete _ h7
  have h9 : Holds (Tagged s req.type) (vSemaphoreDelete _ m) := h8
  have h10 := runEnv_stable _ hI p.before_return _ h9
  exact h10.2

/-- When no completion callback left in the queue writes the address of its
`resp`, and no other context runs between the return of `xSemaphoreTake` and
the return of `SendRequest`, a failed `xQueueSend` or a timed-out
`xSemaphoreTake` makes `SendRequest` return the kind 0xff. -/
theorem SendRequest_sentinel_of_NoStale (w : World α) (s m : Nat) (req : AudioRequest α)
    (p : Preemption) (h : NoStale s w) (hd : p.before_delete = [])
    (hr : p.before_return = [])
    (hfail : (SendRequest w s m req p).enqueued = false ∨
      (SendRequest w s m req p).taken = false) :
    (SendRequest w s m req p).resp.type = AudioRequestType.cast 0xff := by
  have hQ : Stable (Quiet s : List (AudioRequest α) → _ → _ → Prop) := Quiet_stable s
  have hP : Stable (Pending s m : List (AudioRequest α) → _ → _ → Prop) := Pending_stable s m
  have h1 : Holds (Quiet s)
      { w with
        responses := setAt w.responses s { type := AudioRequestType.cast 0xff }
        response_in_scope := setAt w.response_in_scope s true } :=
    ⟨h, by simp [setAt]⟩
  have h2 := runEnv_stable _ hQ p.before_create _ h1
  have hret : (SendRequest w s m req p).resp =
      (xSemaphoreTake
        (runEnv p.before_take
          (xQueueSend
            (runEnv p.before_send
              (xSemaphoreCreateBinary
                (runEnv p.before_create
                  { w with
                    responses := setAt w.responses s { type := AudioRequestType.cast 0xff }
                    response_in_scope := setAt w.response_in_scope s true }) m))
            { req with callback := some { req_semaphore := m, resp := s } } 200
            p.during_send).2)
        m 200 p.during_take).2.responses s := by
    unfold SendRequest
    simp only [hd, hr, runEnv, vSemaphoreDelete]
  rw [hret]
  rcases hfail with hfail | hfail
  · have h3 : Holds (Quiet s) (xSemaphoreCreateBinary _ m) := h2
    have h4 := runEnv_stable _ hQ p.before_send _ h3
    have h5 := xQueueSend_stable_of_fail _ hQ
      { req with callback := some { req_semaphore := m, resp := s } } 200 p.during_send _ h4
      hfail
    have h6 := runEnv_stable _ hQ p.before_take _ h5
    have h7 := xSemaphoreTake_stable _ hQ m (fun q R S hq => hq) 200 p.during_take _ h6
    exact h7.2
  · have h3 : Holds (Pending s m) (xSemaphoreCreateBinary
        (runEnv p.before_create
          { w with
            responses := setAt w.responses s { type := AudioRequestType.cast 0xff }
            response_in_scope := setAt w.response_in_scope s true }) m) :=
      ⟨fun r hr cb hcb hs => absurd hs (h2.1 r hr cb hcb), ⟨false, by
        simp [xSemaphoreCreateBinary, setAt]⟩, fun _ => h2.2⟩
    have h4 := runEnv_stable _ hP p.before_send _ h3
    have h5 := xQueueSend_stable _ hP
      { req with callback := some { req_semaphore := m, resp := s } }
      (by
        intro q R S hq
        refine ⟨?_, hq.2⟩
        intro r hr cb hcb hs
        rcases List.mem_append.1 hr with hr | hr
        · exact hq.1 r hr cb hcb hs
        · rw [List.mem_singleton.1 hr] at hcb
          cases hcb
          rfl)
      200 p.during_send _ h4
    have h6 := runEnv_stable _ hP p.before_take _ h5
    exact xSemaphoreTake_timeout_of_Pending s m 200 p.during_take _ h6 hfail

/-- A step of another context makes no blocking call. -/
theorem EnvStep.run_blocking (e : EnvStep) (w : World α) : (e.run w).blocking = w.blocking := by
  cases e with
  | task =>
    show (TaskLoopStep w).blocking = w.blocking
    unfold TaskLoopStep
    split
    · rfl
    · exact (MessageHandler_view _ _).2.2.1
  | dma_complete status => exact (PdmCallback_view w status).2.2.2.1

/-- A list of steps of other contexts makes no blocking call. -/
theorem runEnv_blocking (sched : List EnvStep) (w : World α) :
    (runEnv sched w).blocking = w.blocking := by
  induction sched generalizing w with
  | nil => rfl
  | cons e es ih =>
    show (runEnv es (e.run w)).blocking = w.blocking
    rw [ih, EnvStep.run_blocking]

/-- The wait of `xQueueSend` adds no blocking call of its own. -/
theorem waitForRoom_blocking (req : AudioRequest α) (sched : List EnvStep) (w : World α) :
    (waitForRoom req sched w).2.blocking = w.blocking := by
  induction sched generalizing w with
  | nil => unfold waitForRoom; split <;> rfl
  | cons e es ih =>
    unfold waitForRoom
    split
    · rfl
    · rw [ih, EnvStep.run_blocking]

/-- The wait of `xSemaphoreTake` adds no blocking call of its own. -/
theorem waitForGive_blocking (sem : Nat) (sched : List EnvStep) (w : World α) :
    (waitForGive sem sched w).2.blocking = w.blocking := by
  induction sched generalizing w with
  | nil => unfold waitForGive; split <;> rfl
  | cons e es ih =>
    unfold waitForGive
    split
    · rfl
    · rw [ih, EnvStep.run_blocking]

/-- `SendRequest` returns for every behaviour of the other contexts, having made
exactly two blocking calls, each with a timeout of 200 ms. -/
theorem SendRequest_blocking (w : World α) (s m : Nat) (req : AudioRequest α)
    (p : Preemption) :
    (SendRequest w s m req p).world.blocking =
      w.blocking ++ [BlockingCall.xQueueSend 200, BlockingCall.xSemaphoreTake 200] := by
  unfold SendRequest xSemaphoreTake xQueueSend vSemaphoreDelete xSemaphoreCreateBinary
  simp only [runEnv_blocking, waitForGive_blocking, waitForRoom_blocking, List.append_assoc,
    List.singleton_append]

/-- While the queue is full and the owning task does not run, the wait of
`xQueueSend` ends in failure. -/
theorem waitForRoom_fails_of_full (req : AudioRequest α) (sched : List EnvStep) (w : World α)
    (hfull : w.queue_length ≤ w.message_queue_.length)
    (hidle : ∀ e ∈ sched, e ≠ EnvStep.task) :
    (waitForRoom req sched w).1 = false := by
  induction sched generalizing w with
  | nil =>
    unfold waitForRoom
    rw [if_neg (Nat.not_lt.2 hfull)]
  | cons e es ih =>
    unfold waitForRoom
    rw [if_neg (Nat.not_lt.2 hfull)]
    apply ih
    · cases e with
      | task => exact absurd rfl (hidle EnvStep.task (List.mem_cons_self _ _))
      | dma_complete status =>
        show (PdmCallback w status).queue_length ≤ (PdmCallback w status).message_queue_.length
        rw [(PdmCallback_view w status).2.2.1, (PdmCallback_view w status).2.1 hfull]
        exact hfull
    · exact fun e2 he2 => hidle e2 (List.mem_cons_of_mem _ he2)

/-! ## Request handlers -/

/-- C5: for every task state, `HandleEnableRequest` makes exactly two outgoing
calls, in this order: the `memset` that zeroes the `rx_buffer_bytes_` bytes at
`rx_buffer_`, then one `PDM_TransferReceiveEDMA`. The state in which the
transfer is armed is the zeroed one with the descriptor filled in: every byte
of the region is zero there, and the descriptor has `data = rx_buffer_`,
`dataSize = rx_buffer_bytes_` and a null `linkTransfer`. The buffer pointer, the
byte length, the installed callback and the queue are left as they were, and no
blocking call is made. -/
theorem HandleEnableRequest_arms_configured_buffer (w : World α) :
    HandleEnableRequest w =
        PDM_TransferReceiveEDMA
          { memset w w.rx_buffer_ 0 w.rx_buffer_bytes_ with
            pdm_transfer_ :=
              { data := w.rx_buffer_, dataSize := w.rx_buffer_bytes_, linkTransfer := 0 } }
          { data := w.rx_buffer_, dataSize := w.rx_buffer_bytes_, linkTransfer := 0 } ∧
      (∀ i, i < w.rx_buffer_bytes_ →
        (memset w w.rx_buffer_ 0 w.rx_buffer_bytes_).memory (w.rx_buffer_ + i) = 0) ∧
      (∀ i, i < w.rx_buffer_bytes_ → (HandleEnableRequest w).memory (w.rx_buffer_ + i) = 0) ∧
      (HandleEnableRequest w).trace =
        w.trace ++ [Call.memset w.rx_buffer_ 0 w.rx_buffer_bytes_,
          Call.PDM_TransferReceiveEDMA
            { data := w.rx_buffer_, dataSize := w.rx_buffer_bytes_, linkTransfer := 0 }] ∧
      (HandleEnableRequest w).pdm_transfer_ =
        { data := w.rx_buffer_, dataSize := w.rx_buffer_bytes_, linkTransfer := 0 } ∧
      (HandleEnableRequest w).rx_buffer_ = w.rx_buffer_ ∧
      (HandleEnableRequest w).rx_buffer_bytes_ = w.rx_buffer_bytes_ ∧
      (HandleEnableRequest w).callback_ = w.callback_ ∧
      (HandleEnableRequest w).message_queue_ = w.message_queue_ ∧
      (HandleEnableRequest w).blocking = w.blocking := by
  refine ⟨rfl, ?_, ?_, ?_, rfl, rfl, rfl, rfl, rfl, rfl⟩
  · intro i hi
    simp [memset, hi]
  · intro i hi
    simp [HandleEnableRequest, PDM_TransferReceiveEDMA, memset, hi]
  · simp [HandleEnableRequest, PDM_TransferReceiveEDMA, memset]

/-- C5 at `sampleWorld`: the eight bytes at address 100 held 0xAA; byte 103 is
zero when the transfer is armed. -/
theorem HandleEnableRequest_arms_configured_buffer_witness :
    sampleWorld.memory 103 = 0xAA ∧ (HandleEnableRequest sampleWorld).memory (100 + 3) = 0 :=
  ⟨rfl, (HandleEnableRequest_arms_configured_buffer sampleWorld).2.2.1 3 (by decide)⟩

/-- C9: for every task state and every callback `f` (null included), handling
a SetCallback request that carries `f` leaves `callback_ = f` whatever was
installed before; `rx_buffer_`, `rx_buffer_bytes_`, the transfer descriptor,
the memory and the queue keep their values and no outgoing call is made: no
transfer is armed, the rail-control collaborator is not called and nothing is
posted. -/
theorem SetCallback_installs_and_nothing_else (w : World α) (f : Option (AudioTaskCallback α))
    (req : AudioRequest α) (ht : req.type = AudioRequestType.SetCallback)
    (hf : req.request.set_callback.callback = f) :
    (MessageHandler w req).callback_ = f ∧
      (MessageHandler w req).rx_buffer_ = w.rx_buffer_ ∧
      (MessageHandler w req).rx_buffer_bytes_ = w.rx_buffer_bytes_ ∧
      (MessageHandler w req).pdm_transfer_ = w.pdm_transfer_ ∧
      (MessageHandler w req).memory = w.memory ∧
      (MessageHandler w req).message_queue_ = w.message_queue_ ∧
      (MessageHandler w req).trace = w.trace ∧
      (MessageHandler w req).blocking = w.blocking := by
  unfold MessageHandler
  rw [ht]
  cases req.callback <;> simp [HandleSetCallback, hf]

/-- C9 at `sampleWorld`: a SetCallback request carrying the null callback
removes the installed one. -/
theorem SetCallback_installs_and_nothing_else_witness :
    sampleWorld.callback_.isSome = true ∧
      (MessageHandler sampleWorld (SetCallback_request none)).callback_ = none :=
  ⟨rfl, (SetCallback_installs_and_nothing_else sampleWorld none (SetCallback_request none)
    rfl rfl).1⟩

/-! ## DMA completion interrupt -/

/-- C6 as stated fails on a full queue: `fullQueueWorld` has a callback
installed that returns the non-null buffer 200 and a queue of capacity 1 that
holds one Power request. After `PdmCallback` with `kStatus_PDM_Idle` the
descriptor has been switched (`rx_buffer_ = 200`) and the interrupt-safe
enqueue has been called once, but no Enable request has been posted to the
queue: the queue still holds the Power request alone. -/
theorem PdmCallback_drops_post_on_full_queue :
    fullQueueWorld.callback_.map (fun cb => (cb fullQueueWorld.app).1) = some 200 ∧
      fullQueueWorld.message_queue_.length = fullQueueWorld.queue_length ∧
      (PdmCallback fullQueueWorld status_t.kStatus_PDM_Idle).rx_buffer_ = 200 ∧
      ((PdmCallback fullQueueWorld status_t.kStatus_PDM_Idle).trace.filter Call.isPost).length =
        1 ∧
      (PdmCallback fullQueueWorld status_t.kStatus_PDM_Idle).message_queue_.map
          (fun r => r.type) = [AudioRequestType.Power] ∧
      ¬ ∃ r ∈ (PdmCallback fullQueueWorld status_t.kStatus_PDM_Idle).message_queue_,
          r.type = AudioRequestType.Enable := by
  refine ⟨rfl, rfl, rfl, rfl, rfl, ?_⟩
  rintro ⟨r, hr, ht⟩
  have hmem : r.type ∈ (PdmCallback fullQueueWorld status_t.kStatus_PDM_Idle).message_queue_.map
      (fun r => r.type) := List.mem_map_of_mem _ hr
  have hq : (PdmCallback fullQueueWorld status_t.kStatus_PDM_Idle).message_queue_.map
      (fun r => r.type) = [AudioRequestType.Power] := rfl
  rw [hq, ht] at hmem
  exact absurd hmem (by decide)

/-- C6, amended: when `PdmCallback` runs with `kStatus_PDM_Idle` and a callback
`cb` is installed, `cb` is called exactly once (on the application state, which
it may change). If it returns a non-null buffer `b`, then on return
`rx_buffer_ = b`, `rx_buffer_bytes_` is unchanged, and the outgoing calls are
the callback followed by exactly one `xQueueSendFromISR` of a request of type
Enable with no completion callback; that request is at the back of the queue
when the queue had a free slot, and the queue is unchanged when it was full
(the interrupt-safe enqueue drops the request and its result is discarded). No
call of the interrupt handler arms a transfer. -/
theorem PdmCallback_exchanges_buffer (w : World α) (cb : AudioTaskCallback α)
    (hcb : w.callback_ = some cb) :
    (PdmCallback w status_t.kStatus_PDM_Idle).app = (cb w.app).2 ∧
      (((PdmCallback w status_t.kStatus_PDM_Idle).trace.drop w.trace.length).filter
        Call.isCallback).length = 1 ∧
      ((cb w.app).1 ≠ 0 →
        (PdmCallback w status_t.kStatus_PDM_Idle).rx_buffer_ = (cb w.app).1 ∧
        (PdmCallback w status_t.kStatus_PDM_Idle).rx_buffer_bytes_ = w.rx_buffer_bytes_ ∧
        (PdmCallback w status_t.kStatus_PDM_Idle).trace =
          w.trace ++ [Call.callback_invoked,
            Call.xQueueSendFromISR
              { type := AudioRequestType.Enable, request := RequestPayload.unset,
                callback := none }] ∧
        (PdmCallback w status_t.kStatus_PDM_Idle).message_queue_ =
          (if w.message_queue_.length < w.queue_length then
            w.message_queue_ ++
              [{ type := AudioRequestType.Enable, request := RequestPayload.unset,
                 callback := none }]
          else w.message_queue_)) ∧
      (∀ c ∈ (PdmCallback w status_t.kStatus_PDM_Idle).trace.drop w.trace.length,
        c.isArm = false) ∧
      (PdmCallback w status_t.kStatus_PDM_Idle).pdm_transfer_ = w.pdm_transfer_ := by
  unfold PdmCallback
  simp only [hcb]
  by_cases hb : (cb w.app).1 = 0
  · simp [hb, Call.isCallback, Call.isArm]
  · simp only [ne_eq, hb, not_false_eq_true, if_true, xQueueSendFromISR, HandleSetBuffer]
    by_cases hq : w.message_queue_.length < w.queue_length
    · simp [hq, Call.isCallback, Call.isArm]
    · simp [hq, Call.isCallback, Call.isArm]

/-- C6 (amended) at `sampleWorld`, whose queue has room: the callback hands out
the buffer at address 200 and the Enable request is queued; and at
`fullQueueWorld`, whose queue is full: the queue is unchanged. -/
theorem PdmCallback_exchanges_buffer_witness :
    sampleWorld.rx_buffer_ = 100 ∧
      (PdmCallback sampleWorld status_t.kStatus_PDM_Idle).rx_buffer_ = 200 ∧
      ((PdmCallback sampleWorld status_t.kStatus_PDM_Idle).message_queue_.map
        (fun r => (r.type, r.callback))) = [(AudioRequestType.Enable, none)] ∧
      (PdmCallback fullQueueWorld status_t.kStatus_PDM_Idle).message_queue_ =
        fullQueueWorld.message_queue_ :=
  ⟨rfl,
    ((PdmCallback_exchanges_buffer sampleWorld (fun n => (200, n + 1)) rfl).2.2.1
      (by decide)).1,
    rfl,
    (((PdmCallback_exchanges_buffer fullQueueWorld (fun n => (200, n + 1)) rfl).2.2.1
      (by decide)).2.2.2).trans (if_neg (by decide))⟩

/-- Handling a request of any kind but Enable arms no transfer. -/
theorem MessageHandler_arms_of_ne_Enable (w : World α) (req : AudioRequest α)
    (h : req.type ≠ AudioRequestType.Enable) :
    (MessageHandler w req).trace.filter Call.isArm = w.trace.filter Call.isArm := by
  unfold MessageHandler
  cases ht : req.type with
  | Enable => exact absurd ht h
  | Power =>
    cases req.callback <;>
      simp [HandlePowerRequest, SetRailState, List.filter_append, Call.isArm]
  | SetCallback => cases req.callback <;> simp [HandleSetCallback]
  | SetBuffer => cases req.callback <;> simp [HandleSetBuffer]
  | cast v => cases req.callback <;> simp

/-- As long as the loop of the owning task dequeues no Enable request, it arms
no transfer. -/
theorem TaskLoopRun_arms_of_no_Enable (n : Nat) (w : World α)
    (h : ∀ r ∈ w.message_queue_.take n, r.type ≠ AudioRequestType.Enable) :
    (TaskLoopRun n w).trace.filter Call.isArm = w.trace.filter Call.isArm := by
  induction n generalizing w with
  | zero => rfl
  | succ n ih =>
    unfold TaskLoopRun TaskLoopStep
    cases hq : w.message_queue_ with
    | nil =>
      simp only
      exact ih w (by simp [hq])
    | cons req rest =>
      simp only
      rw [hq] at h
      have hreq : req.type ≠ AudioRequestType.Enable := h req (by simp)
      have hrest : ∀ r ∈ rest.take n, r.type ≠ AudioRequestType.Enable :=
        fun r hr => h r (by simp [List.take_succ_cons, hr])
      have hmq : (MessageHandler { w with message_queue_ := rest } req).message_queue_ = rest := by
        unfold MessageHandler
        cases req.type <;> cases req.callback <;>
          simp [HandlePowerRequest, SetRailState, HandleEnableRequest, PDM_TransferReceiveEDMA,
            memset, HandleSetCallback, HandleSetBuffer]
      rw [ih _ (by rw [hmq]; exact hrest), MessageHandler_arms_of_ne_Enable _ _ hreq]

/-- C7: when `PdmCallback` runs with a status other than `kStatus_PDM_Idle`, or
with no callback installed, nothing at all changes: in particular the
buffer-exchange callback is not called. When the installed callback is called
and returns null, only the application state (changed by the callback) and the
record of that one call change. In the three cases no request is posted (the
queue is unchanged and the interrupt-safe enqueue is not called), no transfer
is armed, `rx_buffer_` and `rx_buffer_bytes_` keep their values, and
afterwards the owning task arms no transfer for as long as it dequeues no
Enable request. -/
theorem PdmCallback_stops_capture (w : World α) (status : status_t) :
    ((status ≠ status_t.kStatus_PDM_Idle ∨ w.callback_ = none) → PdmCallback w status = w) ∧
      (∀ cb, status = status_t.kStatus_PDM_Idle → w.callback_ = some cb → (cb w.app).1 = 0 →
        PdmCallback w status =
          { w with app := (cb w.app).2, trace := w.trace ++ [Call.callback_invoked] }) ∧
      ((status ≠ status_t.kStatus_PDM_Idle ∨ w.callback_ = none ∨
          ∃ cb, w.callback_ = some cb ∧ (cb w.app).1 = 0) →
        (PdmCallback w status).message_queue_ = w.message_queue_ ∧
        (∀ c ∈ (PdmCallback w status).trace.drop w.trace.length,
          c.isPost = false ∧ c.isArm = false) ∧
        (PdmCallback w status).rx_buffer_ = w.rx_buffer_ ∧
        (PdmCallback w status).rx_buffer_bytes_ = w.rx_buffer_bytes_ ∧
        (PdmCallback w status).pdm_transfer_ = w.pdm_transfer_ ∧
        ∀ n, (∀ r ∈ (PdmCallback w status).message_queue_.take n,
            r.type ≠ AudioRequestType.Enable) →
          (TaskLoopRun n (PdmCallback w status)).trace.filter Call.isArm =
            w.trace.filter Call.isArm) := by
  have hA : (status ≠ status_t.kStatus_PDM_Idle ∨ w.callback_ = none) →
      PdmCallback w status = w := by
    intro h
    unfold PdmCallback
    cases status with
    | kStatus_PDM_Idle =>
      rcases h with h | h
      · exact absurd rfl h
      · simp [h]
    | other code => rfl
  have hB : ∀ cb, status = status_t.kStatus_PDM_Idle → w.callback_ = some cb →
      (cb w.app).1 = 0 → PdmCallback w status =
        { w with app := (cb w.app).2, trace := w.trace ++ [Call.callback_invoked] } := by
    intro cb hs hcb hnull
    unfold PdmCallback
    simp [hs, hcb, hnull]
  refine ⟨hA, hB, ?_⟩
  intro h
  by_cases hs : status = status_t.kStatus_PDM_Idle
  · cases hc : w.callback_ with
    | none =>
      rw [hA (Or.inr hc)]
      exact ⟨rfl, by simp, rfl, rfl, rfl, fun n hn => TaskLoopRun_arms_of_no_Enable n w hn⟩
    | some cb =>
      have hnull : (cb w.app).1 = 0 := by
        rcases h with h | h | ⟨cb2, h2, h3⟩
        · exact absurd hs h
        · rw [hc] at h; cases h
        · rw [hc] at h2; cases h2; exact h3
      rw [hB cb hs hc hnull]
      refine ⟨rfl, by simp [Call.isPost, Call.isArm], rfl, rfl, rfl, fun n hn => ?_⟩
      rw [TaskLoopRun_arms_of_no_Enable n _ hn]
      simp [List.filter_append, Call.isArm]
  · rw [hA (Or.inl hs)]
    exact ⟨rfl, by simp, rfl, rfl, rfl, fun n hn => TaskLoopRun_arms_of_no_Enable n w hn⟩

/-- C7 at `sampleWorld` with an error status: the state is untouched. -/
theorem PdmCallback_stops_capture_witness :
    status_t.other 1 ≠ status_t.kStatus_PDM_Idle ∧
      PdmCallback sampleWorld (status_t.other 1) = sampleWorld :=
  ⟨by decide, (PdmCallback_stops_capture sampleWorld (status_t.other 1)).1 (Or.inl (by decide))⟩

/-! ## Error interrupt -/

/-- A write-one-to-clear write clears the bits of the mask and keeps the others. -/
theorem writeOneToClear_testBit (reg mask i : Nat) :
    (writeOneToClear reg mask).testBit i = (reg.testBit i && !mask.testBit i) := by
  unfold writeOneToClear
  rw [Nat.testBit_xor, Nat.testBit_and]
  cases reg.testBit i <;> cases mask.testBit i <;> rfl

/-- Writing back the value read from a write-one-to-clear register clears it. -/
theorem writeOneToClear_self (reg : Nat) : writeOneToClear reg reg = 0 := by
  unfold writeOneToClear
  rw [Nat.and_self, Nat.xor_self]

/-- A write-one-to-clear write of a mask that meets no set bit changes nothing. -/
theorem writeOneToClear_of_and_eq_zero (reg mask : Nat) (h : reg &&& mask = 0) :
    writeOneToClear reg mask = reg := by
  unfold writeOneToClear
  rw [h, Nat.xor_zero]

/-- C10: for all values of the three PDM status registers, `PDM_ERROR_IRQHandler`
calls `PDM_ClearStatus` with the low-frequency mask exactly when that flag is
set, `PDM_ClearFIFOStatus` with exactly the FIFO-status value read when it is
non-zero, and `PDM_ClearRangeStatus` with exactly the range-status value read
when it is non-zero, and makes no other outgoing call. Afterwards the status
register has the bits of the low-frequency mask cleared and its other bits
unchanged, and the two other registers are zero. Nothing else changes: buffer
descriptor, callback, queue, memory and caller objects are as before, nothing
is posted and no transfer is armed. -/
theorem PDM_ERROR_IRQHandler_clears_flags_only (PDM_STAT_LOWFREQF_MASK : Nat) (w : World α) :
    PDM_ERROR_IRQHandler PDM_STAT_LOWFREQF_MASK w =
        { w with
          STAT := writeOneToClear w.STAT PDM_STAT_LOWFREQF_MASK
          FIFO_STAT := 0
          RANGE_STAT := 0
          trace := w.trace ++
            ((if w.STAT &&& PDM_STAT_LOWFREQF_MASK ≠ 0 then
                [Call.PDM_ClearStatus PDM_STAT_LOWFREQF_MASK] else []) ++
              ((if w.FIFO_STAT ≠ 0 then [Call.PDM_ClearFIFOStatus w.FIFO_STAT] else []) ++
                (if w.RANGE_STAT ≠ 0 then [Call.PDM_ClearRangeStatus w.RANGE_STAT] else []))) } ∧
      (∀ i, (PDM_ERROR_IRQHandler PDM_STAT_LOWFREQF_MASK w).STAT.testBit i =
        (w.STAT.testBit i && !PDM_STAT_LOWFREQF_MASK.testBit i)) ∧
      (∀ c ∈ (PDM_ERROR_IRQHandler PDM_STAT_LOWFREQF_MASK w).trace.drop w.trace.length,
        c.isArm = false ∧ c.isPost = false ∧ c.isCallback = false ∧ c.isRail = false) := by
  have key : PDM_ERROR_IRQHandler PDM_STAT_LOWFREQF_MASK w =
      { w with
        STAT := writeOneToClear w.STAT PDM_STAT_LOWFREQF_MASK
        FIFO_STAT := 0
        RANGE_STAT := 0
        trace := w.trace ++
          ((if w.STAT &&& PDM_STAT_LOWFREQF_MASK ≠ 0 then
              [Call.PDM_ClearStatus PDM_STAT_LOWFREQF_MASK] else []) ++
            ((if w.FIFO_STAT ≠ 0 then [Call.PDM_ClearFIFOStatus w.FIFO_STAT] else []) ++
              (if w.RANGE_STAT ≠ 0 then [Call.PDM_ClearRangeStatus w.RANGE_STAT] else []))) } := by
    unfold PDM_ERROR_IRQHandler
    by_cases h1 : w.STAT &&& PDM_STAT_LOWFREQF_MASK = 0 <;>
      by_cases h2 : w.FIFO_STAT = 0 <;>
      by_cases h3 : w.RANGE_STAT = 0 <;>
      simp [h1, h2, h3, PDM_ClearStatus, PDM_ClearFIFOStatus, PDM_ClearRangeStatus,
        writeOneToClear_self, writeOneToClear_of_and_eq_zero]
    cases w
    simp_all
  refine ⟨key, ?_, ?_⟩
  · intro i
    rw [key]
    exact writeOneToClear_testBit _ _ i
  · intro c hc
    rw [key] at hc
    simp only [List.drop_left, List.mem_append] at hc
    rcases hc with hc | hc | hc <;> split at hc <;> simp at hc <;> subst hc <;>
      simp [Call.isArm, Call.isPost, Call.isCallback, Call.isRail]

/-- C10 with the low-frequency flag at bit 29, on a state whose status register
holds that flag and bit 2 and whose FIFO-status register holds 3: the flag is
cleared, bit 2 stays, and the clear calls are the two expected ones. -/
theorem PDM_ERROR_IRQHandler_clears_flags_only_witness :
    (PDM_ERROR_IRQHandler 0x20000000
        { sampleWorld with STAT := 0x20000004, FIFO_STAT := 3 }).STAT.testBit 29 = false ∧
      (PDM_ERROR_IRQHandler 0x20000000
        { sampleWorld with STAT := 0x20000004, FIFO_STAT := 3 }).STAT.testBit 2 = true ∧
      (PDM_ERROR_IRQHandler 0x20000000
        { sampleWorld with STAT := 0x20000004, FIFO_STAT := 3 }).trace =
        [Call.PDM_ClearStatus 0x20000000, Call.PDM_ClearFIFOStatus 3] :=
  ⟨((PDM_ERROR_IRQHandler_clears_flags_only 0x20000000
      { sampleWorld with STAT := 0x20000004, FIFO_STAT := 3 }).2.1 29).trans (by decide),
    ((PDM_ERROR_IRQHandler_clears_flags_only 0x20000000
      { sampleWorld with STAT := 0x20000004, FIFO_STAT := 3 }).2.1 2).trans (by decide),
    by rfl⟩

/-! ## Accelerator enumeration -/

open edgetpu_state in
/-- C8: in the transition function written from the table of the spec, the
state changes only along a documented edge; a detach event lands in
`EDGETPU_STATE_UNATTACHED` from every state, `EDGETPU_STATE_CONNECTED` and
`EDGETPU_STATE_ERROR` included; a failed selection callback in
`EDGETPU_STATE_SET_INTERFACE` and a failed status callback in
`EDGETPU_STATE_GET_STATUS` land in `EDGETPU_STATE_ERROR`; from
`EDGETPU_STATE_CONNECTED` and from `EDGETPU_STATE_ERROR` no event other than
detach changes the state. The state is always one of the six enumerators. -/
theorem edgetpu_state_changes_along_documented_edges :
    (∀ s e, edgetpuNextState s e ≠ s → DocumentedEdge s e (edgetpuNextState s e)) ∧
      (∀ s, edgetpuNextState s EdgeTpuEvent.detach = EDGETPU_STATE_UNATTACHED) ∧
      edgetpuNextState EDGETPU_STATE_SET_INTERFACE (EdgeTpuEvent.selection_callback false) =
        EDGETPU_STATE_ERROR ∧
      edgetpuNextState EDGETPU_STATE_GET_STATUS (EdgeTpuEvent.status_callback false) =
        EDGETPU_STATE_ERROR ∧
      (∀ s e, s = EDGETPU_STATE_CONNECTED ∨ s = EDGETPU_STATE_ERROR →
        e ≠ EdgeTpuEvent.detach → edgetpuNextState s e = s) ∧
      (∀ s : edgetpu_state, s.toNat < 6) := by
  refine ⟨?_, ?_, rfl, rfl, ?_, ?_⟩
  · intro s e h
    cases e with
    | detach =>
      have : edgetpuNextState s EdgeTpuEvent.detach = EDGETPU_STATE_UNATTACHED := by
        cases s <;> rfl
      rw [this]
      exact DocumentedEdge.detach s
    | attach vid pid =>
      cases s <;> try exact absurd rfl h
      by_cases hid : vid = kEdgeTpuVid ∧ pid = kEdgeTpuPid
      · obtain ⟨hv, hpid⟩ := hid
        subst hv
        subst hpid
        have : edgetpuNextState EDGETPU_STATE_UNATTACHED
            (EdgeTpuEvent.attach kEdgeTpuVid kEdgeTpuPid) = EDGETPU_STATE_ATTACHED := by
          simp [edgetpuNextState]
        rw [this]
        exact DocumentedEdge.attach
      · exact absurd (by simp [edgetpuNextState, hid]) h
    | interface_selection_issued =>
      cases s <;> first | exact absurd rfl h | exact DocumentedEdge.issue
    | selection_callback ok =>
      cases ok <;> cases s <;>
        first
        | exact absurd rfl h
        | exact DocumentedEdge.selected
        | exact DocumentedEdge.selection_failed
    | status_callback ok =>
      cases ok <;> cases s <;>
        first
        | exact absurd rfl h
        | exact DocumentedEdge.status_ok
        | exact DocumentedEdge.status_failed
  · intro s
    cases s <;> rfl
  · intro s e hs he
    rcases hs with rfl | rfl <;> cases e with
      | detach => exact absurd rfl he
      | attach vid pid => rfl
      | interface_selection_issued => rfl
      | selection_callback ok => cases ok <;> rfl
      | status_callback ok => cases ok <;> rfl
  · intro s
    cases s <;> decide

open edgetpu_state in
/-- C8 at concrete events: a late failed status callback leaves
`EDGETPU_STATE_CONNECTED` alone, and the edge taken by a matching attach is a
documented one. -/
theorem edgetpu_state_changes_along_documented_edges_witness :
    edgetpuNextState EDGETPU_STATE_CONNECTED (EdgeTpuEvent.status_callback false) =
        EDGETPU_STATE_CONNECTED ∧
      DocumentedEdge EDGETPU_STATE_UNATTACHED (EdgeTpuEvent.attach 0x18d1 0x9302)
        (edgetpuNextState EDGETPU_STATE_UNATTACHED (EdgeTpuEvent.attach 0x18d1 0x9302)) :=
  ⟨edgetpu_state_changes_along_documented_edges.2.2.2.2.1 EDGETPU_STATE_CONNECTED
      (EdgeTpuEvent.status_callback false) (Or.inl rfl) (by decide),
    edgetpu_state_changes_along_documented_edges.1 EDGETPU_STATE_UNATTACHED
      (EdgeTpuEvent.attach 0x18d1 0x9302) (by decide)⟩

end valiant
